import Mathlib

/-!
# Verification of the loop-safety bundle

A shallow embedding of the two core components of the repository:

* `amplifier_module_hooks_loop_detector/detector.py` — the loop-detector
  hook (sliding window of tool-call signatures, classifier, one-shot
  escalation policy);
* `amplifier_module_orchestrator_loop_safe/orchestrator.py` — the
  bounded agent orchestration loop (iteration ceiling, threshold
  warnings, graceful wrap-up, hook interception, tool-result
  normalization), together with the variant implementation
  `orchestrator_loop_safe/orchestrator.py` where the two differ.

Python floats are modelled as `Rat`: every similarity score produced by
the detector is a multiple of 1/2 and every average a multiple of 1/8,
values on which binary floating point is exact.  Python's process-seeded
`hash` (used only inside `_compute_signature`) is not embedded; all
detector theorems quantify over the signature strings themselves, which
is the interface between the codec and the classifier.
-/

namespace LoopSafety

/-! ## Loop detector: `detector.py` -/

/-- Configuration of `LoopDetectorHook.__init__` (`detector.py` lines
35-38), with the documented defaults. -/
structure DetectorConfig where
  detection_window : Nat := 10
  similarity_threshold : Rat := 85/100
  action_on_detect : String := "warn"
  apply_to_sub_sessions : Bool := false

/-- The mutable state of a `LoopDetectorHook` instance: the sliding
window `recent_calls` (a `deque` with `maxlen = detection_window`) and
the one-shot flag `already_warned` (`detector.py` lines 41-44). -/
structure DetectorState where
  recent_calls : List String
  already_warned : Bool

/-- `HookResult` as used by both modules: the orchestrator reads
`action`, `reason`, `context_injection` and `context_injection_role`;
the detector constructs results with exactly these fields. -/
structure HookResult where
  action : String
  reason : String := ""
  context_injection : String := ""
  context_injection_role : Option String := none
deriving DecidableEq

/-- Splits a character list at the first `':'`, returning the parts
before and after it, or `none` when no colon occurs.  This is the
character-level engine of Python's `s.split(":", 1)`. -/
def breakOnColon : List Char → Option (List Char × List Char)
  | [] => none
  | c :: rest =>
      if c = ':' then some ([], rest)
      else
        match breakOnColon rest with
        | none => none
        | some (a, b) => some (c :: a, b)

/-- Python's `s.split(":", 1)`: a one-element list when `s` has no
colon, otherwise the part before the first colon followed by everything
after it. -/
def split1 (s : String) : List String :=
  match breakOnColon s.toList with
  | none => [s]
  | some (a, b) => [String.mk a, String.mk b]

/-- `LoopDetectorHook._calculate_similarity` (`detector.py` lines
105-131): unpack both signatures as `name:hash` (a failed unpack —
Python's `ValueError` — scores 0.0); different tools score 0.0, same
tool and same hash 1.0, same tool and different hash 0.5. -/
def calculate_similarity (sig1 sig2 : String) : Rat :=
  match split1 sig1, split1 sig2 with
  | [name1, hash1], [name2, hash2] =>
      if name1 ≠ name2 then 0
      else if hash1 = hash2 then 1
      else 1/2
  | _, _ => 0

/-- The similarity scores of each adjacent pair of a list, in order:
the loop `for i in range(len(last_five) - 1)` of `detector.py` lines
163-165. -/
def adjacentSims : List String → List Rat
  | a :: b :: rest => calculate_similarity a b :: adjacentSims (b :: rest)
  | _ => []

/-- Renders a nonnegative rational with two digits after the decimal
point, rounding half to even — Python's `f"{x:.2f}"` on the values the
detector produces (multiples of 1/8, on which binary floating point is
exact). -/
def format2 (q : Rat) : String :=
  let scaled := q * 100
  let fl : Int := ⌊scaled⌋
  let frac := scaled - fl
  let n : Int :=
    if frac < 1/2 then fl
    else if 1/2 < frac then fl + 1
    else if fl % 2 = 0 then fl else fl + 1
  let m := n.natAbs
  let sign := if n < 0 then "-" else ""
  sign ++ toString (m / 100) ++ "." ++
    (if m % 100 < 10 then "0" else "") ++ toString (m % 100)

/-- `LoopDetectorHook._detect_loop` (`detector.py` lines 133-176).
Returns `(is_loop, description)`.  Fewer than 5 entries: no pattern.
All entries identical to the first: exact-repeat verdict naming the
tool and the window length.  Otherwise: average the adjacent-pair
similarities of the last five entries and compare against the
threshold. -/
def detect_loop (threshold : Rat) (recent_calls : List String) : Bool × String :=
  if recent_calls.length < 5 then (false, "")
  else
    let recent := recent_calls
    let first_sig := recent.headD ""
    let identical_count := recent.countP (fun sig => sig == first_sig)
    if identical_count = recent.length then
      let tool_name := (split1 first_sig).headD ""
      (true, "Same tool '" ++ tool_name ++ "' called " ++
        toString recent.length ++ " times with identical arguments")
    else
      if 5 ≤ recent.length then
        let last_five := recent.drop (recent.length - 5)
        let similarities := adjacentSims last_five
        let avg_similarity := similarities.sum / (similarities.length : Rat)
        if threshold ≤ avg_similarity then
          let tool_name := (split1 (last_five.headD "")).headD ""
          (true, "Repetitive pattern detected: tool '" ++ tool_name ++
            "' similarity=" ++ format2 avg_similarity)
        else (false, "")
      else (false, "")

/-- The guidance message built by `_handle_detection`
(`detector.py` lines 188-200). -/
def detection_message (description : String) : String :=
  "<system-reminder source=\"hooks-loop-detector\">\n" ++
  "⚠️ **Repetitive Pattern Detected**\n\n" ++ description ++
  "\n\nThis may indicate an infinite loop. Consider:\n" ++
  "- Is this task making measurable progress?\n" ++
  "- Should you try a different approach?\n" ++
  "- Can you delegate to an agent instead of polling?\n" ++
  "- Should you return results to the user?\n\n" ++
  "For analysis: delegate to loop-safety:loop-diagnostician\n" ++
  "</system-reminder>"

/-- `LoopDetectorHook._handle_detection` (`detector.py` lines 178-218):
dispatch on `action_on_detect`. -/
def handle_detection (cfg : DetectorConfig) (description : String) : HookResult :=
  if cfg.action_on_detect = "deny" then
    { action := "deny"
      reason := "Loop detected - blocking to prevent infinite execution: " ++ description }
  else if cfg.action_on_detect = "warn" then
    { action := "inject_context"
      context_injection := detection_message description
      context_injection_role := some "system" }
  else { action := "continue" }

/-- Appending to a `deque` with `maxlen`: the oldest entry is evicted
when the buffer is full (`detector.py` line 41, `line 70`). -/
def deque_append (maxlen : Nat) (w : List String) (x : String) : List String :=
  let w' := w ++ [x]
  if maxlen < w'.length then w'.drop (w'.length - maxlen) else w'

/-- One event delivered to the hook.  `signature` stands for the string
`_compute_signature` builds from the event's `tool_name` and
`tool_input` (its `hash` component is process-seeded in Python, so the
theorems quantify over the resulting signature string);
`parent_truthy` is the truthiness of `data.get("parent_id")`. -/
structure EventIn where
  event : String
  parent_truthy : Bool
  signature : String

/-- `LoopDetectorHook.__call__` (`detector.py` lines 51-80) as a state
transition: skip sub-session events unless configured, and on
`tool:post` push the signature, run the classifier, and escalate once. -/
def hook_call (cfg : DetectorConfig) (st : DetectorState) (e : EventIn) :
    DetectorState × HookResult :=
  if ¬ cfg.apply_to_sub_sessions ∧ e.parent_truthy then
    (st, { action := "continue" })
  else if e.event = "tool:post" then
    let w := deque_append cfg.detection_window st.recent_calls e.signature
    let d := detect_loop cfg.similarity_threshold w
    if d.1 ∧ ¬ st.already_warned then
      ({ recent_calls := w, already_warned := true }, handle_detection cfg d.2)
    else
      ({ recent_calls := w, already_warned := st.already_warned },
       { action := "continue" })
  else (st, { action := "continue" })

/-- Delivering a sequence of events to one hook instance, collecting
the returned `HookResult`s. -/
def run_events (cfg : DetectorConfig) (st : DetectorState) :
    List EventIn → DetectorState × List HookResult
  | [] => (st, [])
  | e :: rest =>
      let p := hook_call cfg st e
      let q := run_events cfg p.1 rest
      (q.1, p.2 :: q.2)

/-- Builds the signature string `f"{tool_name}:{args_hash}"`
(`detector.py` line 103). -/
def mkSig (name fp : String) : String := name ++ ":" ++ fp

/-! ## Spec-side description of the similarity check (for refinement) -/

/-- Modelled from the spec's words (§4.2, similarity repeat), for
comparison with the code: 1.0 if same tool name and same fingerprint,
0.5 if same tool name but different fingerprint, 0.0 otherwise. -/
def specPairScore (p q : String × String) : Rat :=
  if p.1 = q.1 ∧ p.2 = q.2 then 1
  else if p.1 = q.1 then 1/2
  else 0

/-- Spec-side adjacent pairwise scores of a signature list. -/
def specAdjScores : List (String × String) → List Rat
  | a :: b :: rest => specPairScore a b :: specAdjScores (b :: rest)
  | _ => []

/-- Spec-side average of the 4 pairwise scores of the most recent 5
signatures. -/
def specLastFiveAvg (ps : List (String × String)) : Rat :=
  (specAdjScores (ps.drop (ps.length - 5))).sum / 4


end LoopSafety

namespace LoopSafety

/-! ## Orchestrator: `amplifier_module_orchestrator_loop_safe/orchestrator.py`

The loop is embedded as a recursive function over the iteration count,
producing a trace of its observable actions (provider calls, hook
events, appended messages, tool executions) together with its outcome.
Provider responses, `tool:pre` hook verdicts and tool results are
supplied by oracles indexed by the number of calls made so far, which
captures every possible behavior of these external collaborators;
message content is modelled as the string the code manipulates
(`_content_to_string`/`_serialize_content` are the identity on string
content).  Provider selection (line 69) and `ToolSpec` construction
(lines 79-88) only choose which external oracle answers, so the
oracles absorb them; the tool registry is kept as the list of
registered tool names. -/

/-- Python values a tool may return where the code only needs
truthiness and `str(...)` (orchestrator.py lines 264-276). -/
inductive Scalar where
  | str (s : String)
  | int (n : Int)
  | bool (b : Bool)
  | pynone
deriving DecidableEq

/-- Python truthiness of a `Scalar`. -/
def Scalar.truthy : Scalar → Bool
  | .str s => s ≠ ""
  | .int n => n ≠ 0
  | .bool b => b
  | .pynone => false

/-- Python `str(...)` of a `Scalar`. -/
def Scalar.pystr : Scalar → String
  | .str s => s
  | .int n => toString n
  | .bool true => "True"
  | .bool false => "False"
  | .pynone => "None"

/-- The value of a result object's `output` attribute: either a dict
holding optional `stdout`/`stderr` string entries (`none` = key
absent), or a scalar. -/
inductive OutputVal where
  | dict (stdout stderr : Option String)
  | scalar (v : Scalar)
deriving DecidableEq

/-- A tool result as `_execute_tool` distinguishes them: an object
with an `output` attribute, or a plain scalar value. -/
inductive ToolOutput where
  | withOutput (o : OutputVal)
  | plain (v : Scalar)
deriving DecidableEq

/-- Truthiness of an optional dict entry: absent or empty string is
falsy (`output.get("stdout")`). -/
def optTruthy : Option String → Bool
  | some s => s ≠ ""
  | none => false

/-- Result normalization of
`amplifier_module_orchestrator_loop_safe` `_execute_tool`
(orchestrator.py lines 264-276): dict outputs are joined from their
truthy `stdout` and `stderr: ...` parts with the `(empty output)`
sentinel fallback; other outputs and plain results go through
`str(...)` with the same sentinel for falsy values. -/
def normalize_result (r : ToolOutput) : String :=
  match r with
  | .withOutput (.dict stdout stderr) =>
      let parts : List String :=
        (match stdout with
         | some s => if s ≠ "" then [s] else []
         | none => []) ++
        (match stderr with
         | some s => if s ≠ "" then ["stderr: " ++ s] else []
         | none => [])
      if parts.isEmpty then "(empty output)" else String.intercalate "\n" parts
  | .withOutput (.scalar v) => if v.truthy then v.pystr else "(empty output)"
  | .plain v => if v.truthy then v.pystr else "(empty output)"

/-- What a tool-role message's content can be once the two
implementations are compared: a string, a raw dict, or a raw non-string
scalar. -/
inductive MsgContent where
  | ofStr (s : String)
  | ofDict (stdout stderr : Option String)
  | ofScalar (v : Scalar)
deriving DecidableEq

/-- Result normalization of the variant implementation
`orchestrator_loop_safe` `_execute_tool` (orchestrator.py line 240):
`result.output if hasattr(result, "output") else str(result)` — the
`output` attribute is returned unconverted. -/
def normalize_result_v2 (r : ToolOutput) : MsgContent :=
  match r with
  | .withOutput (.dict a b) => .ofDict a b
  | .withOutput (.scalar (.str s)) => .ofStr s
  | .withOutput (.scalar v) => .ofScalar v
  | .plain v => .ofStr v.pystr

/-- A parsed tool call (`provider.parse_tool_calls`): id, tool name and
the serialized argument payload. -/
structure ToolCall where
  id : String
  name : String
  arguments : String
deriving DecidableEq

/-- A conversation message as the orchestrator appends them. -/
structure Msg where
  role : String
  content : String
  name : Option String := none
  tool_call_id : Option String := none
  tool_calls : Option (List ToolCall) := none
deriving DecidableEq

/-- The hook events the orchestrator emits, with the payload fields the
spec lists as relevant to correctness. -/
inductive Event where
  | providerRequest (iteration : Nat) (wrapUp : Bool)
  | providerResponse
  | providerError (e : String)
  | limitReached (iteration maxIter : Nat)
  | toolPre (toolName arguments id : String)
  | toolPost (toolName arguments : String)
  | toolError (toolName e : String)
  | orchestratorComplete (turnCount : Nat) (status : String)
deriving DecidableEq

/-- One observable action of the loop: a `provider.complete` call
(recording the `tools` argument of its `ChatRequest`, `none` = tools
disabled), an `_inject_warning` call, a `context.add_message`, a
`hooks.emit`, or a `tool.execute` invocation. -/
inductive Action where
  | providerCall (toolsArg : Option (List String))
  | warn (count : Nat)
  | addMsg (m : Msg)
  | emit (e : Event)
  | toolExec (toolName : String)
deriving DecidableEq

/-- A provider response: content string plus parsed tool calls, or a
raised exception. -/
inductive PResp where
  | ok (content : String) (tool_calls : List ToolCall)
  | fail (e : String)

/-- The external collaborators of one `execute` invocation, as oracles
indexed by the number of preceding calls of each kind.  `toolNames` is
the tool registry's key set; `toolRes n` is what the `n`-th
`tool.execute` invocation returns or raises. -/
structure Env where
  provider : Nat → PResp
  pre : Nat → Option HookResult
  toolNames : List String
  toolRes : Nat → Except String ToolOutput

/-- `LoopSafeOrchestrator.__init__` configuration with its defaults
(orchestrator.py lines 44-47). -/
structure OrchConfig where
  max_iterations : Nat := 100
  warn_at : List Nat := [75, 90]
  stop_on_error : Bool := false

/-- How an invocation of `execute` ends: a returned string or a
propagated exception. -/
inductive Outcome where
  | returned (text : String)
  | raised (e : String)
deriving DecidableEq

/-- The `tools` argument of the main loop's `ChatRequest`: `None` when
the registry is empty, else the registered tools (lines 79-88, 115). -/
def tools_arg (env : Env) : Option (List String) :=
  if env.toolNames.isEmpty then none else some env.toolNames

/-- The `_inject_warning` message (orchestrator.py lines 291-300); the
percentage models `int((count / max) * 100)`, exact at the multiples
involved. -/
def warning_message (count maxIter : Nat) : String :=
  "<system-reminder source=\"orchestrator-loop-safe\">\n" ++
  "⚠️ **Iteration Warning**\n" ++
  "You are at iteration " ++ toString count ++ " of " ++ toString maxIter ++
  " maximum (" ++ toString (count * 100 / maxIter) ++ "%).\n\n" ++
  "Consider:\n" ++
  "- Have you made progress toward the goal?\n" ++
  "- Are you stuck in a monitoring or polling loop?\n" ++
  "- Should you summarize progress and return to the user?\n" ++
  "</system-reminder>"

/-- The `_handle_limit_reached` termination message (orchestrator.py
lines 309-320). -/
def termination_message (maxIter : Nat) : String :=
  "<system-reminder source=\"orchestrator-loop-safe\">\n" ++
  "🛑 **Maximum Iterations Reached**\n" ++
  "Stopped at " ++ toString maxIter ++
  " iterations to prevent runaway execution.\n\n" ++
  "You MUST now:\n" ++
  "1. Summarize the progress made\n" ++
  "2. Explain what was accomplished\n" ++
  "3. Indicate what remains to be done\n" ++
  "4. Return control to the user\n\n" ++
  "Do NOT attempt to continue the task. Provide a summary and stop.\n" ++
  "</system-reminder>"

/-- The tool-role message appended after each tool call (orchestrator.py
lines 218-225). -/
def toolMsg (tc : ToolCall) (content : String) : Msg :=
  { role := "tool", content := content, name := some tc.name,
    tool_call_id := some tc.id }

/-- A system-role message. -/
def systemMsg (content : String) : Msg :=
  { role := "system", content := content }

/-- An assistant-role message carrying the serialized tool calls when
present (orchestrator.py lines 156-174). -/
def assistantMsg (content : String) (tcs : Option (List ToolCall)) : Msg :=
  { role := "assistant", content := content, tool_calls := tcs }

/-- The message appended for an `inject_context` verdict
(orchestrator.py lines 206-212). -/
def injectionMsg (role content : String) : Msg :=
  { role := role, content := content }

/-- `(getattr(pre_result, "context_injection_role", "system") or
"system")` — a missing or falsy role defaults to `"system"`
(orchestrator.py line 209). -/
def roleOr (o : Option String) : String :=
  match o with
  | some s => if s = "" then "system" else s
  | none => "system"

/-- `LoopSafeOrchestrator._execute_tool` (orchestrator.py lines
238-287): unknown tool → `tool:error` and an `Error:` text; otherwise
run the tool (the `tc`-th execution oracle entry), emit `tool:post` and
normalize on success, emit `tool:error` and either re-raise
(`stop_on_error`) or return the failure text on an exception.  Returns
the actions, the result (`Except.error` = exception propagates) and the
updated tool-execution count. -/
def execute_tool (cfg : OrchConfig) (env : Env) (tcall : ToolCall) (tc : Nat) :
    List Action × Except String String × Nat :=
  if tcall.name ∈ env.toolNames then
    match env.toolRes tc with
    | .ok r =>
        ([.toolExec tcall.name, .emit (.toolPost tcall.name tcall.arguments)],
         .ok (normalize_result r), tc + 1)
    | .error e =>
        ([.toolExec tcall.name, .emit (.toolError tcall.name e)],
         if cfg.stop_on_error then .error e
         else .ok ("Tool execution failed: " ++ e), tc + 1)
  else
    ([.emit (.toolError tcall.name ("Tool '" ++ tcall.name ++ "' not found"))],
     .ok ("Error: Tool '" ++ tcall.name ++ "' not found"), tc)

/-- The per-tool-call body of the main loop (orchestrator.py lines
191-225): emit `tool:pre` (the `hc`-th hook oracle entry answers),
dispatch on the verdict — `deny` short-circuits with the blocked text,
`inject_context` appends the injected message then executes, anything
else executes — and append the tool-role message (skipped when a
re-raised tool exception aborts).  Returns actions, `Except.error` on
abort, and the updated hook / tool-execution counts. -/
def handle_tool_call (cfg : OrchConfig) (env : Env) (tcall : ToolCall)
    (hc tc : Nat) : List Action × Except String Unit × Nat × Nat :=
  let preAct := Action.emit (.toolPre tcall.name tcall.arguments tcall.id)
  match env.pre hc with
  | some r =>
      if r.action = "deny" then
        ([preAct, .addMsg (toolMsg tcall ("Tool blocked by hook: " ++ r.reason))],
         .ok (), hc + 1, tc)
      else if r.action = "inject_context" then
        match execute_tool cfg env tcall tc with
        | (acts, .ok content, tc') =>
            ([preAct, .addMsg (injectionMsg (roleOr r.context_injection_role)
                r.context_injection)] ++ acts ++
              [.addMsg (toolMsg tcall content)], .ok (), hc + 1, tc')
        | (acts, .error e, tc') =>
            ([preAct, .addMsg (injectionMsg (roleOr r.context_injection_role)
                r.context_injection)] ++ acts, .error e, hc + 1, tc')
      else
        match execute_tool cfg env tcall tc with
        | (acts, .ok content, tc') =>
            ([preAct] ++ acts ++ [.addMsg (toolMsg tcall content)],
             .ok (), hc + 1, tc')
        | (acts, .error e, tc') => ([preAct] ++ acts, .error e, hc + 1, tc')
  | none =>
      match execute_tool cfg env tcall tc with
      | (acts, .ok content, tc') =>
          ([preAct] ++ acts ++ [.addMsg (toolMsg tcall content)],
           .ok (), hc + 1, tc')
      | (acts, .error e, tc') => ([preAct] ++ acts, .error e, hc + 1, tc')

/-- The `for tool_call in tool_calls` loop (orchestrator.py line 191),
strictly sequential; a re-raised tool exception aborts the rest. -/
def run_tool_calls (cfg : OrchConfig) (env : Env) :
    List ToolCall → Nat → Nat → List Action × Except String Unit × Nat × Nat
  | [], hc, tc => ([], .ok (), hc, tc)
  | t :: rest, hc, tc =>
      match handle_tool_call cfg env t hc tc with
      | (acts, .ok _, hc', tc') =>
          match run_tool_calls cfg env rest hc' tc' with
          | (acts2, res, hc'', tc'') => (acts ++ acts2, res, hc'', tc'')
      | (acts, .error e, hc', tc') => (acts, .error e, hc', tc')

/-- `LoopSafeOrchestrator._handle_limit_reached` (orchestrator.py lines
305-372): append the termination message, one wrap-up provider call
with `tools=None`; on success append the assistant text, emit
`orchestrator:complete` with status `"incomplete"` and return the text;
on failure emit status `"error"` and return the failure text (no
raise).  `count` is the iteration count, `pc` the provider-call
count. -/
def handle_limit_reached (cfg : OrchConfig) (env : Env) (count pc : Nat) :
    List Action × Outcome × Nat :=
  let base : List Action :=
    [.addMsg (systemMsg (termination_message cfg.max_iterations)),
     .emit (.providerRequest count true),
     .providerCall none]
  match env.provider pc with
  | .ok content _ =>
      (base ++ [.emit .providerResponse,
        .addMsg (assistantMsg content none),
        .emit (.orchestratorComplete count "incomplete")],
       .returned content, pc + 1)
  | .fail e =>
      (base ++ [.emit (.orchestratorComplete count "error")],
       .returned ("Reached iteration limit. Failed to generate summary: " ++ e),
       pc + 1)

end LoopSafety

namespace LoopSafety

/-- One pass of the `while True` loop of `LoopSafeOrchestrator.execute`
(orchestrator.py lines 91-225) and all following passes.  `count` is
`self.iteration_count` before the increment at line 92; `pc`, `hc`,
`tc` count the provider calls, `tool:pre` emissions and tool executions
made so far.  Each pass: increment the count; inject a warning when the
new count is in `warn_at`; at the ceiling, emit
`orchestrator:limit_reached` and delegate to `_handle_limit_reached`;
otherwise emit `provider:request`, call the provider (a failure is
re-raised after `provider:error`), emit `provider:response`, append the
assistant message, finish with status `"success"` when there are no
tool calls, else run the tool calls and continue.  Returns the trace,
the outcome and the final iteration count. -/
def loop_iter (cfg : OrchConfig) (env : Env) (count pc hc tc : Nat) :
    List Action × Outcome × Nat :=
  let warnActs : List Action :=
    if count + 1 ∈ cfg.warn_at then
      [.warn (count + 1),
       .addMsg (systemMsg (warning_message (count + 1) cfg.max_iterations))]
    else []
  if _h : cfg.max_iterations ≤ count + 1 then
    match handle_limit_reached cfg env (count + 1) pc with
    | (acts, out, _) =>
        (warnActs ++ [.emit (.limitReached (count + 1) cfg.max_iterations)] ++ acts,
         out, count + 1)
  else
    let reqActs : List Action :=
      [.emit (.providerRequest (count + 1) false), .providerCall (tools_arg env)]
    match env.provider pc with
    | .fail e =>
        (warnActs ++ reqActs ++ [.emit (.providerError e)], .raised e, count + 1)
    | .ok content tcs =>
        let baseActs := warnActs ++ reqActs ++
          [.emit .providerResponse,
           .addMsg (assistantMsg content (if tcs.isEmpty then none else some tcs))]
        if tcs.isEmpty then
          (baseActs ++ [.emit (.orchestratorComplete (count + 1) "success")],
           .returned content, count + 1)
        else
          match run_tool_calls cfg env tcs hc tc with
          | (tacts, .ok _, hc', tc') =>
              match loop_iter cfg env (count + 1) (pc + 1) hc' tc' with
              | (racts, out, fc) => (baseActs ++ tacts ++ racts, out, fc)
          | (tacts, .error e, _, _) =>
              (baseActs ++ tacts, .raised e, count + 1)
termination_by cfg.max_iterations - count
decreasing_by omega

/-- `LoopSafeOrchestrator.execute` (orchestrator.py lines 56-236):
append the prompt as a user message, reset the iteration count to 0 and
run the loop. -/
def execute_run (cfg : OrchConfig) (env : Env) (prompt : String) :
    List Action × Outcome × Nat :=
  match loop_iter cfg env 0 0 0 0 with
  | (acts, out, fc) =>
      (Action.addMsg { role := "user", content := prompt } :: acts, out, fc)

/-- Recognizes a `provider.complete` invocation in a trace. -/
def isProviderCall : Action → Bool
  | .providerCall _ => true
  | _ => false

/-- The number of provider-completion calls recorded in a trace. -/
def providerCalls (tr : List Action) : Nat :=
  tr.countP isProviderCall

/-- Recognizes a tool execution in a trace. -/
def isToolExec : Action → Bool
  | .toolExec _ => true
  | _ => false

/-- The number of `_inject_warning` calls recorded for threshold `v`. -/
def countWarn (tr : List Action) (v : Nat) : Nat :=
  tr.countP (fun a => a == Action.warn v)

end LoopSafety

namespace LoopSafety

/-! ## Lemmas about signature splitting and similarity -/

theorem breakOnColon_of_no_colon (a : List Char) (h : ':' ∉ a) :
    breakOnColon a = none := by
  induction a with
  | nil => rfl
  | cons c rest ih =>
      have hc : c ≠ ':' := fun e => h (e ▸ List.mem_cons_self c rest)
      have hrest : ':' ∉ rest := fun e => h (List.mem_cons_of_mem c e)
      simp [breakOnColon, hc, ih hrest]

theorem breakOnColon_append (a b : List Char) (h : ':' ∉ a) :
    breakOnColon (a ++ ':' :: b) = some (a, b) := by
  induction a with
  | nil => simp [breakOnColon]
  | cons c rest ih =>
      have hc : c ≠ ':' := fun e => h (e ▸ List.mem_cons_self c rest)
      have hrest : ':' ∉ rest := fun e => h (List.mem_cons_of_mem c e)
      simp [breakOnColon, hc, ih hrest]

theorem split1_mkSig (name fp : String) (h : ':' ∉ name.data) :
    split1 (mkSig name fp) = [name, fp] := by
  have hdata : (mkSig name fp).toList = name.data ++ ':' :: fp.data := by
    simp [mkSig, String.toList, String.data_append]
  simp only [split1, hdata, breakOnColon_append _ _ h]

theorem calculate_similarity_mkSig (p q : String × String)
    (h1 : ':' ∉ p.1.data) (h2 : ':' ∉ q.1.data) :
    calculate_similarity (mkSig p.1 p.2) (mkSig q.1 q.2) =
      specPairScore p q := by
  unfold calculate_similarity specPairScore
  rw [split1_mkSig _ _ h1, split1_mkSig _ _ h2]
  by_cases hn : p.1 = q.1 <;> by_cases hf : p.2 = q.2 <;> simp [hn, hf]

theorem calculate_similarity_cases (x y : String) :
    calculate_similarity x y = 0 ∨ calculate_similarity x y = 1/2 ∨
      calculate_similarity x y = 1 := by
  unfold calculate_similarity
  rcases split1 x with _ | ⟨a, _ | ⟨b, _ | _⟩⟩ <;>
    rcases split1 y with _ | ⟨c, _ | ⟨d, _ | _⟩⟩ <;> simp
  by_cases hac : a = c <;> by_cases hbd : b = d <;> simp [hac, hbd]

theorem calculate_similarity_ge_half (x y : String)
    (h : 1/2 ≤ calculate_similarity x y) :
    ∃ n hx hy, split1 x = [n, hx] ∧ split1 y = [n, hy] := by
  unfold calculate_similarity at h
  rcases hx : split1 x with _ | ⟨a, _ | ⟨b, _ | _⟩⟩ <;>
    rcases hy : split1 y with _ | ⟨c, _ | ⟨d, _ | _⟩⟩ <;>
      rw [hx, hy] at h <;> norm_num at h
  by_cases hac : a = c
  · exact ⟨a, b, d, rfl, by rw [hac]⟩
  · rw [if_neg hac] at h
    norm_num at h

theorem adjacentSims_map_mkSig (l : List (String × String))
    (h : ∀ p ∈ l, ':' ∉ p.1.data) :
    adjacentSims (l.map fun p => mkSig p.1 p.2) = specAdjScores l := by
  induction l with
  | nil => rfl
  | cons a l ih =>
      cases l with
      | nil => rfl
      | cons b m =>
          have ht := ih fun p hp => h p (List.mem_cons_of_mem a hp)
          simp only [List.map_cons] at ht ⊢
          simp only [adjacentSims, specAdjScores]
          rw [calculate_similarity_mkSig a b (h a (by simp)) (h b (by simp)), ht]

theorem adjacentSims_length (l : List String) :
    (adjacentSims l).length = l.length - 1 := by
  induction l with
  | nil => rfl
  | cons a l ih =>
      cases l with
      | nil => rfl
      | cons b m => simp only [adjacentSims, List.length_cons] at ih ⊢; omega

theorem detect_loop_of_fst_false (t : Rat) (w : List String)
    (h : (detect_loop t w).1 = false) : detect_loop t w = (false, "") := by
  by_cases h1 : w.length < 5
  · simp [detect_loop, h1]
  · by_cases h2 : ∀ s ∈ w, s = w.head?.getD ""
    · exfalso
      simp only [detect_loop, h1, if_false] at h
      simp at h
      rw [if_pos h2] at h
      simp at h
    · by_cases h3 : (5:Nat) ≤ w.length
      · by_cases h4 : t ≤ (adjacentSims (w.drop (w.length - 5))).sum /
            ((adjacentSims (w.drop (w.length - 5))).length : Rat)
        · exfalso
          simp [detect_loop, h1, h2, h3, h4] at h
        · simp [detect_loop, h1, h2, h3, h4]
      · simp [detect_loop, h1, h2, h3]

theorem exists_five_of_length_eq {α : Type} (l : List α) (h : l.length = 5) :
    ∃ a b c d e, l = [a, b, c, d, e] := by
  rcases l with _ | ⟨a, _ | ⟨b, _ | ⟨c, _ | ⟨d, _ | ⟨e, _ | ⟨f, l⟩⟩⟩⟩⟩⟩ <;>
    simp_all

end LoopSafety

namespace LoopSafety

theorem countP_head_eq_length_iff (w : List String) :
    List.countP (fun sig => sig == w.headD "") w = w.length ↔
      ∀ s ∈ w, s = w.headD "" := by
  rw [List.countP_eq_length]
  constructor <;> intro h s hs <;> simpa using h s hs

theorem detect_loop_similarity_branch (t : Rat) (w : List String)
    (h5 : 5 ≤ w.length)
    (hns : ¬ List.countP (fun sig => sig == w.headD "") w = w.length) :
    detect_loop t w =
      (if t ≤ (adjacentSims (w.drop (w.length - 5))).sum /
          ((adjacentSims (w.drop (w.length - 5))).length : Rat) then
        (true, "Repetitive pattern detected: tool '" ++
          (split1 ((w.drop (w.length - 5)).headD "")).headD "" ++
          "' similarity=" ++ format2 ((adjacentSims (w.drop (w.length - 5))).sum /
            ((adjacentSims (w.drop (w.length - 5))).length : Rat)))
      else (false, "")) := by
  simp only [detect_loop]
  rw [if_neg (by omega), if_neg hns, if_pos h5]

theorem detect_loop_exact_repeat (t : Rat) (name fp : String) (w : List String)
    (hc : ':' ∉ name.data) (h5 : 5 ≤ w.length)
    (hall : ∀ s ∈ w, s = mkSig name fp) :
    detect_loop t w = (true, "Same tool '" ++ name ++ "' called " ++
      toString w.length ++ " times with identical arguments") := by
  obtain ⟨a, rest, rfl⟩ : ∃ a rest, w = a :: rest := by
    cases w with
    | nil => simp at h5
    | cons a rest => exact ⟨a, rest, rfl⟩
  have ha : a = mkSig name fp := hall a (by simp)
  have hcount : List.countP (fun sig => sig == (a :: rest).headD "") (a :: rest) =
      (a :: rest).length := by
    rw [List.countP_eq_length]
    intro x hx
    have hx' := hall x hx
    simp [hx', ha]
  simp only [detect_loop]
  rw [if_neg (by omega), if_pos hcount, List.headD_cons, ha, split1_mkSig _ _ hc]
  rfl

/-- **C4.** A window holding fewer than 5 signatures yields the
no-pattern verdict; a window of length `N ≥ 5` whose entries all equal
one signature `name:fp` (tool name colon-free) yields the exact-repeat
verdict naming the tool and stating it was called `N` times with
identical arguments. -/
theorem C4_window_minimum_and_exact_repeat :
    (∀ (t : Rat) (w : List String), w.length < 5 →
      detect_loop t w = (false, "")) ∧
    (∀ (t : Rat) (name fp : String) (w : List String), ':' ∉ name.data →
      5 ≤ w.length → (∀ s ∈ w, s = mkSig name fp) →
      detect_loop t w = (true, "Same tool '" ++ name ++ "' called " ++
        toString w.length ++ " times with identical arguments")) := by
  constructor
  · intro t w h
    simp [detect_loop, h]
  · intro t name fp w hc h5 hall
    exact detect_loop_exact_repeat t name fp w hc h5 hall

/-- Witness for C4: a 2-entry window is no pattern, and 5 identical
`read:h1` signatures produce the count-5 exact-repeat verdict. -/
theorem C4_witness :
    detect_loop (85/100) [mkSig "read" "h1", mkSig "read" "h1"] = (false, "") ∧
    detect_loop (85/100) (List.replicate 5 (mkSig "read" "h1")) =
      (true, "Same tool 'read' called 5 times with identical arguments") := by
  constructor
  · exact C4_window_minimum_and_exact_repeat.1 (85/100) _ (by decide)
  · have h := C4_window_minimum_and_exact_repeat.2 (85/100) "read" "h1"
      (List.replicate 5 (mkSig "read" "h1")) (by decide) (by decide)
      (fun s hs => List.eq_of_mem_replicate hs)
    exact h.trans (by decide)

theorem hook_call_after_warned (cfg : DetectorConfig) (st : DetectorState)
    (e : EventIn) (h : st.already_warned = true) :
    (hook_call cfg st e).1.already_warned = true ∧
      (hook_call cfg st e).2.action = "continue" := by
  unfold hook_call
  split
  · simp [h]
  · split
    · dsimp only
      split
      · rename_i hcond
        rw [h] at hcond
        simp at hcond
      · simp [h]
    · simp [h]

/-- **C6.** Once `already_warned` is true it stays true across any
further sequence of events, and every result returned from then on is
the no-op `continue` — never `deny` or `inject_context`. -/
theorem C6_one_shot_suppression :
    ∀ (cfg : DetectorConfig) (st : DetectorState) (evs : List EventIn),
      st.already_warned = true →
      (run_events cfg st evs).1.already_warned = true ∧
      ∀ r ∈ (run_events cfg st evs).2, r.action = "continue" := by
  intro cfg st evs
  induction evs generalizing st with
  | nil =>
      intro h
      exact ⟨h, by simp [run_events]⟩
  | cons e rest ih =>
      intro h
      have hstep := hook_call_after_warned cfg st e h
      have hrest := ih (hook_call cfg st e).1 hstep.1
      refine ⟨hrest.1, ?_⟩
      intro r hr
      simp only [run_events, List.mem_cons] at hr
      rcases hr with hr | hr
      · rw [hr]; exact hstep.2
      · exact hrest.2 r hr

/-- Witness for C6: an instance that has already warned, fed a fifth
identical `tool:post` (a qualifying exact-repeat pattern), still returns
`continue` and keeps the flag set. -/
theorem C6_witness :
    (run_events ⟨10, 85/100, "warn", false⟩
      ⟨List.replicate 4 (mkSig "t" "1"), true⟩
      [⟨"tool:post", false, mkSig "t" "1"⟩]).1.already_warned = true ∧
    ∀ r ∈ (run_events ⟨10, 85/100, "warn", false⟩
      ⟨List.replicate 4 (mkSig "t" "1"), true⟩
      [⟨"tool:post", false, mkSig "t" "1"⟩]).2, r.action = "continue" :=
  C6_one_shot_suppression _ _ _ rfl

end LoopSafety

namespace LoopSafety

theorem specAdjScores_length (l : List (String × String)) :
    (specAdjScores l).length = l.length - 1 := by
  induction l with
  | nil => rfl
  | cons a l ih =>
      cases l with
      | nil => rfl
      | cons b m => simp only [specAdjScores, List.length_cons] at ih ⊢; omega

theorem sim_bounds (x y : String) :
    0 ≤ calculate_similarity x y ∧ calculate_similarity x y ≤ 1 := by
  rcases calculate_similarity_cases x y with h | h | h <;> rw [h] <;> norm_num

theorem mkSig_name_eq (n1 f1 n2 f2 : String) (h1 : ':' ∉ n1.data)
    (h2 : ':' ∉ n2.data) (h : mkSig n1 f1 = mkSig n2 f2) : n1 = n2 := by
  have hs := split1_mkSig n1 f1 h1
  rw [h, split1_mkSig n2 f2 h2] at hs
  exact (by simpa using hs : n2 = n1 ∧ f2 = f1).1.symm

theorem detect_loop_similarity_iff (t : Rat) (ps : List (String × String))
    (hcf : ∀ p ∈ ps, ':' ∉ p.1.data) (h5 : 5 ≤ ps.length)
    (hnot : ¬ ∀ s ∈ ps.map (fun p => mkSig p.1 p.2),
        s = (ps.map (fun p => mkSig p.1 p.2)).headD "") :
    ((detect_loop t (ps.map (fun p => mkSig p.1 p.2))).1 = true ↔
      t ≤ specLastFiveAvg ps) := by
  have hlen : (ps.map (fun p => mkSig p.1 p.2)).length = ps.length := by simp
  have hns : ¬ List.countP
      (fun sig => sig == (ps.map (fun p => mkSig p.1 p.2)).headD "")
      (ps.map (fun p => mkSig p.1 p.2)) =
      (ps.map (fun p => mkSig p.1 p.2)).length := by
    rw [countP_head_eq_length_iff]
    exact hnot
  have hbranch := detect_loop_similarity_branch t _ (by omega) hns
  have hdrop : (ps.map (fun p => mkSig p.1 p.2)).drop
      ((ps.map (fun p => mkSig p.1 p.2)).length - 5) =
      (ps.drop (ps.length - 5)).map (fun p => mkSig p.1 p.2) := by
    rw [hlen, List.map_drop]
  have hsims : adjacentSims ((ps.map (fun p => mkSig p.1 p.2)).drop
      ((ps.map (fun p => mkSig p.1 p.2)).length - 5)) =
      specAdjScores (ps.drop (ps.length - 5)) := by
    rw [hdrop]
    exact adjacentSims_map_mkSig _ (fun p hp => hcf p (List.drop_subset _ _ hp))
  have hslen : (adjacentSims ((ps.map (fun p => mkSig p.1 p.2)).drop
      ((ps.map (fun p => mkSig p.1 p.2)).length - 5))).length = 4 := by
    rw [adjacentSims_length, List.length_drop]
    omega
  have havg : (adjacentSims ((ps.map (fun p => mkSig p.1 p.2)).drop
      ((ps.map (fun p => mkSig p.1 p.2)).length - 5))).sum /
      ((adjacentSims ((ps.map (fun p => mkSig p.1 p.2)).drop
        ((ps.map (fun p => mkSig p.1 p.2)).length - 5))).length : Rat) =
      specLastFiveAvg ps := by
    rw [hslen, hsims, specLastFiveAvg]
    norm_num
  rw [hbranch, havg]
  split
  · rename_i hta
    simp [hta]
  · rename_i hta
    simp [hta]

/-- **C5.** On a window of well-formed signatures of length ≥ 5 that is
not entirely identical, the classifier reports a pattern exactly when
the average of the 4 adjacent-pair scores of the 5 most recent
signatures (1.0 same tool and fingerprint, 0.5 same tool only, 0.0
different tools — the spec-side scoring) reaches the threshold; in
particular five signatures alternating between two distinct tools give
the no-pattern verdict for any positive threshold. -/
theorem C5_similarity_decision_matches_spec :
    (∀ (t : Rat) (ps : List (String × String)),
      (∀ p ∈ ps, ':' ∉ p.1.data) → 5 ≤ ps.length →
      ¬ (∀ s ∈ ps.map (fun p => mkSig p.1 p.2),
          s = (ps.map (fun p => mkSig p.1 p.2)).headD "") →
      ((detect_loop t (ps.map (fun p => mkSig p.1 p.2))).1 = true ↔
        t ≤ specLastFiveAvg ps)) ∧
    (∀ (t : Rat) (n1 n2 f1 f2 f3 f4 f5 : String), 0 < t → n1 ≠ n2 →
      ':' ∉ n1.data → ':' ∉ n2.data →
      detect_loop t [mkSig n1 f1, mkSig n2 f2, mkSig n1 f3, mkSig n2 f4,
        mkSig n1 f5] = (false, "")) := by
  constructor
  · exact detect_loop_similarity_iff
  · intro t n1 n2 f1 f2 f3 f4 f5 ht hne hc1 hc2
    have hcf : ∀ p ∈ ([(n1,f1),(n2,f2),(n1,f3),(n2,f4),(n1,f5)] :
        List (String × String)), ':' ∉ p.1.data := by
      intro p hp
      simp only [List.mem_cons, List.not_mem_nil, or_false] at hp
      rcases hp with rfl | rfl | rfl | rfl | rfl <;>
        first | exact hc1 | exact hc2
    have hnot : ¬ ∀ s ∈ (([(n1,f1),(n2,f2),(n1,f3),(n2,f4),(n1,f5)] :
        List (String × String)).map (fun p => mkSig p.1 p.2)),
        s = (([(n1,f1),(n2,f2),(n1,f3),(n2,f4),(n1,f5)] :
          List (String × String)).map (fun p => mkSig p.1 p.2)).headD "" := by
      intro hall
      have h2 := hall (mkSig n2 f2) (by simp)
      simp only [List.map_cons, List.headD_cons] at h2
      exact hne (mkSig_name_eq n1 f1 n2 f2 hc1 hc2 h2.symm)
    have hiff := detect_loop_similarity_iff t
      [(n1,f1),(n2,f2),(n1,f3),(n2,f4),(n1,f5)] hcf (by simp) hnot
    have havg : specLastFiveAvg
        ([(n1,f1),(n2,f2),(n1,f3),(n2,f4),(n1,f5)] : List (String × String)) = 0 := by
      simp [specLastFiveAvg, specAdjScores, specPairScore, hne, Ne.symm hne]
    have hfst : (detect_loop t (([(n1,f1),(n2,f2),(n1,f3),(n2,f4),(n1,f5)] :
        List (String × String)).map (fun p => mkSig p.1 p.2))).1 = false := by
      rcases hb : (detect_loop t (([(n1,f1),(n2,f2),(n1,f3),(n2,f4),(n1,f5)] :
          List (String × String)).map (fun p => mkSig p.1 p.2))).1 with _ | _
      · exact hb
      · exfalso
        have := hiff.mp hb
        rw [havg] at this
        exact absurd this (not_le.mpr ht)
    have := detect_loop_of_fst_false t _ hfst
    simpa using this

/-- Witness for C5: distinct-tool data discharging both conjuncts'
hypotheses at concrete inputs. -/
theorem C5_witness :
    ((detect_loop (85/100) (([("a","1"),("a","1"),("a","1"),("a","1"),("a","2")] :
        List (String × String)).map (fun p => mkSig p.1 p.2))).1 = true ↔
      (85/100 : Rat) ≤ specLastFiveAvg
        [("a","1"),("a","1"),("a","1"),("a","1"),("a","2")]) ∧
    detect_loop (85/100) [mkSig "a" "1", mkSig "b" "2", mkSig "a" "3",
      mkSig "b" "4", mkSig "a" "5"] = (false, "") := by
  constructor
  · exact C5_similarity_decision_matches_spec.1 (85/100)
      [("a","1"),("a","1"),("a","1"),("a","1"),("a","2")]
      (by decide) (by decide) (by decide)
  · exact C5_similarity_decision_matches_spec.2 (85/100) "a" "b" "1" "2" "3" "4" "5"
      (by norm_num) (by decide) (by decide) (by decide)

end LoopSafety

namespace LoopSafety

/-- **C10.** With a threshold strictly above 0.75, a pattern reported by
the similarity check forces every adjacent pair of the 5 most recent
signatures to score at least 0.5, hence all five parse as `name:hash`
with one common tool name, and the verdict's description states exactly
that name. -/
theorem C10_pattern_implies_common_tool :
    ∀ (t : Rat) (w : List String), 3/4 < t → 5 ≤ w.length →
      ¬ (∀ s ∈ w, s = w.headD "") → (detect_loop t w).1 = true →
      ∃ name : String,
        (∀ s ∈ w.drop (w.length - 5), ∃ fp, split1 s = [name, fp]) ∧
        (∀ x ∈ adjacentSims (w.drop (w.length - 5)), 1/2 ≤ x) ∧
        ∃ suffix, (detect_loop t w).2 =
          "Repetitive pattern detected: tool '" ++ name ++
            "' similarity=" ++ suffix := by
  intro t w ht h5 hnot hfst
  have hns : ¬ List.countP (fun sig => sig == w.headD "") w = w.length := by
    rw [countP_head_eq_length_iff]
    exact hnot
  have hbranch := detect_loop_similarity_branch t w h5 hns
  obtain ⟨a, b, c, d, e, hl5⟩ := exists_five_of_length_eq (w.drop (w.length - 5))
    (by rw [List.length_drop]; omega)
  rw [hl5] at hbranch
  have hsims : adjacentSims [a, b, c, d, e] =
      [calculate_similarity a b, calculate_similarity b c,
       calculate_similarity c d, calculate_similarity d e] := rfl
  rw [hsims] at hbranch
  rw [hbranch] at hfst
  split at hfst
  case isFalse => simp at hfst
  case isTrue hta =>
  rw [if_pos hta] at hbranch
  have hsum : ([calculate_similarity a b, calculate_similarity b c,
      calculate_similarity c d, calculate_similarity d e] : List Rat).sum =
      calculate_similarity a b + calculate_similarity b c +
      calculate_similarity c d + calculate_similarity d e := by
    simp
    ring
  have hlen4 : (([calculate_similarity a b, calculate_similarity b c,
      calculate_similarity c d, calculate_similarity d e] : List Rat).length : Rat)
      = 4 := by norm_num
  rw [hsum, hlen4] at hta
  have hgt : 3 < calculate_similarity a b + calculate_similarity b c +
      calculate_similarity c d + calculate_similarity d e := by
    have := lt_of_lt_of_le ht hta
    linarith
  have bab := sim_bounds a b
  have bbc := sim_bounds b c
  have bcd := sim_bounds c d
  have bde := sim_bounds d e
  have hge : ∀ x y : String,
      2 < calculate_similarity x y +
        (calculate_similarity a b + calculate_similarity b c +
         calculate_similarity c d + calculate_similarity d e -
         calculate_similarity x y - 3) + 1 →
      True := fun _ _ _ => trivial
  have h1 : 1/2 ≤ calculate_similarity a b := by
    rcases calculate_similarity_cases a b with h | h | h <;> rw [h] <;>
      first
      | (exfalso; rw [h] at hgt; linarith [bbc.2, bcd.2, bde.2])
      | norm_num
  have h2 : 1/2 ≤ calculate_similarity b c := by
    rcases calculate_similarity_cases b c with h | h | h <;> rw [h] <;>
      first
      | (exfalso; rw [h] at hgt; linarith [bab.2, bcd.2, bde.2])
      | norm_num
  have h3 : 1/2 ≤ calculate_similarity c d := by
    rcases calculate_similarity_cases c d with h | h | h <;> rw [h] <;>
      first
      | (exfalso; rw [h] at hgt; linarith [bab.2, bbc.2, bde.2])
      | norm_num
  have h4 : 1/2 ≤ calculate_similarity d e := by
    rcases calculate_similarity_cases d e with h | h | h <;> rw [h] <;>
      first
      | (exfalso; rw [h] at hgt; linarith [bab.2, bbc.2, bcd.2])
      | norm_num
  obtain ⟨na, fa, fb, hsa, hsb⟩ := calculate_similarity_ge_half a b h1
  obtain ⟨nb, fb2, fc, hsb2, hsc⟩ := calculate_similarity_ge_half b c h2
  obtain ⟨nc, fc2, fd, hsc2, hsd⟩ := calculate_similarity_ge_half c d h3
  obtain ⟨nd, fd2, fe, hsd2, hse⟩ := calculate_similarity_ge_half d e h4
  have hnb : na = nb := (by simpa using hsb.symm.trans hsb2 : na = nb ∧ fb = fb2).1
  rw [← hnb] at hsc
  have hnc : na = nc := (by simpa using hsc.symm.trans hsc2 : na = nc ∧ fc = fc2).1
  rw [← hnc] at hsd
  have hnd : na = nd := (by simpa using hsd.symm.trans hsd2 : na = nd ∧ fd = fd2).1
  rw [← hnd] at hse
  refine ⟨na, ?_, ?_, ?_⟩
  · rw [hl5]
    intro s hs
    simp only [List.mem_cons, List.not_mem_nil, or_false] at hs
    rcases hs with rfl | rfl | rfl | rfl | rfl
    · exact ⟨fa, hsa⟩
    · exact ⟨fb, hsb⟩
    · exact ⟨fc, hsc⟩
    · exact ⟨fd, hsd⟩
    · exact ⟨fe, hse⟩
  · rw [hl5, hsims]
    intro x hx
    simp only [List.mem_cons, List.not_mem_nil, or_false] at hx
    rcases hx with rfl | rfl | rfl | rfl
    · exact h1
    · exact h2
    · exact h3
    · exact h4
  · refine ⟨format2 (([calculate_similarity a b, calculate_similarity b c,
      calculate_similarity c d, calculate_similarity d e] : List Rat).sum /
      (([calculate_similarity a b, calculate_similarity b c,
        calculate_similarity c d, calculate_similarity d e] : List Rat).length : Rat)), ?_⟩
    rw [hbranch]
    simp only [List.headD_cons, hsa, List.headD_cons]

/-- Witness for C10: five signatures of one tool with one differing
fingerprint trigger the similarity verdict at the default threshold;
the common tool name is recovered. -/
theorem C10_witness :
    ∃ name : String,
      (∀ s ∈ ([mkSig "a" "1", mkSig "a" "1", mkSig "a" "1", mkSig "a" "1",
          mkSig "a" "2"] : List String).drop
          (([mkSig "a" "1", mkSig "a" "1", mkSig "a" "1", mkSig "a" "1",
            mkSig "a" "2"] : List String).length - 5),
        ∃ fp, split1 s = [name, fp]) ∧
      (∀ x ∈ adjacentSims (([mkSig "a" "1", mkSig "a" "1", mkSig "a" "1",
          mkSig "a" "1", mkSig "a" "2"] : List String).drop
          (([mkSig "a" "1", mkSig "a" "1", mkSig "a" "1", mkSig "a" "1",
            mkSig "a" "2"] : List String).length - 5)), 1/2 ≤ x) ∧
      ∃ suffix, (detect_loop (85/100) [mkSig "a" "1", mkSig "a" "1",
          mkSig "a" "1", mkSig "a" "1", mkSig "a" "2"]).2 =
        "Repetitive pattern detected: tool '" ++ name ++
          "' similarity=" ++ suffix := by
  have hns : ¬ List.countP (fun sig => sig ==
      ([mkSig "a" "1", mkSig "a" "1", mkSig "a" "1", mkSig "a" "1",
        mkSig "a" "2"] : List String).headD "")
      [mkSig "a" "1", mkSig "a" "1", mkSig "a" "1", mkSig "a" "1", mkSig "a" "2"]
      = ([mkSig "a" "1", mkSig "a" "1", mkSig "a" "1", mkSig "a" "1",
        mkSig "a" "2"] : List String).length := by decide
  have hadj : adjacentSims (([mkSig "a" "1", mkSig "a" "1", mkSig "a" "1",
      mkSig "a" "1", mkSig "a" "2"] : List String).drop
      (([mkSig "a" "1", mkSig "a" "1", mkSig "a" "1", mkSig "a" "1",
        mkSig "a" "2"] : List String).length - 5)) = [1, 1, 1, 1/2] := rfl
  have hle : (85/100 : Rat) ≤ (adjacentSims (([mkSig "a" "1", mkSig "a" "1",
      mkSig "a" "1", mkSig "a" "1", mkSig "a" "2"] : List String).drop
      (([mkSig "a" "1", mkSig "a" "1", mkSig "a" "1", mkSig "a" "1",
        mkSig "a" "2"] : List String).length - 5))).sum /
      ((adjacentSims (([mkSig "a" "1", mkSig "a" "1", mkSig "a" "1",
        mkSig "a" "1", mkSig "a" "2"] : List String).drop
        (([mkSig "a" "1", mkSig "a" "1", mkSig "a" "1", mkSig "a" "1",
          mkSig "a" "2"] : List String).length - 5))).length : Rat) := by
    rw [hadj]
    norm_num [List.sum_cons, List.sum_nil]
  have hfst : (detect_loop (85/100) [mkSig "a" "1", mkSig "a" "1",
      mkSig "a" "1", mkSig "a" "1", mkSig "a" "2"]).1 = true := by
    rw [detect_loop_similarity_branch (85/100) _ (by decide) hns, if_pos hle]
  exact C10_pattern_implies_common_tool (85/100)
    [mkSig "a" "1", mkSig "a" "1", mkSig "a" "1", mkSig "a" "1", mkSig "a" "2"]
    (by norm_num) (by decide) (by decide) hfst

end LoopSafety


namespace LoopSafety

/-- **C7.** Tool-result normalization: `{stdout:"a"}` gives `"a"`;
`{stdout:"a", stderr:"b"}` gives `"a\nstderr: b"`; the empty dict gives
the `(empty output)` sentinel; every falsy scalar gives the sentinel;
and in general a truthy stdout with a truthy stderr gives the stdout
joined with the `stderr: ...` line by a newline. -/
theorem C7_normalization_cases :
    normalize_result (.withOutput (.dict (some "a") none)) = "a" ∧
    normalize_result (.withOutput (.dict (some "a") (some "b"))) = "a\nstderr: b" ∧
    normalize_result (.withOutput (.dict none none)) = "(empty output)" ∧
    (∀ v : Scalar, v.truthy = false →
      normalize_result (.plain v) = "(empty output)") ∧
    (∀ a b : String, a ≠ "" → b ≠ "" →
      normalize_result (.withOutput (.dict (some a) (some b))) =
        a ++ "\n" ++ ("stderr: " ++ b)) := by
  refine ⟨by decide, by decide, by decide, ?_, ?_⟩
  · intro v hv
    simp [normalize_result, hv]
  · intro a b ha hb
    simp only [normalize_result, ha, hb, if_pos]
    simp [String.intercalate, String.intercalate.go, ha, hb]

/-- Witness for C7: the hypothesis-bearing conjuncts applied at the
falsy scalar `0` and at stdout `"x"`, stderr `"y"`. -/
theorem C7_witness :
    normalize_result (.plain (Scalar.int 0)) = "(empty output)" ∧
    normalize_result (.withOutput (.dict (some "x") (some "y"))) =
      "x" ++ "\n" ++ ("stderr: " ++ "y") :=
  ⟨C7_normalization_cases.2.2.2.1 (Scalar.int 0) rfl,
   C7_normalization_cases.2.2.2.2 "x" "y" (by decide) (by decide)⟩

/-- **C9 (amended).** The two `_execute_tool` implementations are not
equivalent.  They produce the same tool-role message content exactly
when the result is a truthy plain scalar (no `output` attribute) or a
result object whose `output` is a nonempty string; on every other
result — dict outputs, non-string or falsy outputs, falsy scalars —
the variant returns the raw output (or the unsentineled text) and the
messages differ. -/
theorem C9_execute_tool_equivalence_characterized :
    ∀ r : ToolOutput,
      MsgContent.ofStr (normalize_result r) = normalize_result_v2 r ↔
        ((∃ v, r = .plain v ∧ v.truthy = true) ∨
         (∃ s, r = .withOutput (.scalar (.str s)) ∧ s ≠ "")) := by
  intro r
  rcases r with o | v
  · rcases o with ⟨st, se⟩ | v
    · simp [normalize_result, normalize_result_v2]
    · rcases v with s | n | b | _
      · by_cases hs : s = ""
        · subst hs
          simp [normalize_result, normalize_result_v2, Scalar.truthy]
        · simp [normalize_result, normalize_result_v2, Scalar.truthy, Scalar.pystr, hs]
      · simp [normalize_result, normalize_result_v2]
      · simp [normalize_result, normalize_result_v2]
      · simp [normalize_result, normalize_result_v2]
  · rcases hv : v.truthy with _ | _
    · constructor
      · intro h
        exfalso
        rcases v with s | n | b | _
        · have hs : s = "" := by simpa [Scalar.truthy] using hv
          subst hs
          exact absurd h (by decide)
        · have hn : n = 0 := by simpa [Scalar.truthy] using hv
          subst hn
          exact absurd h (by decide)
        · have hb : b = false := by simpa [Scalar.truthy] using hv
          subst hb
          exact absurd h (by decide)
        · exact absurd h (by decide)
      · rintro (⟨w, hw, hwt⟩ | ⟨s, hs, _⟩)
        · rw [ToolOutput.plain.injEq] at hw
          rw [← hw] at hwt
          rw [hv] at hwt
          exact absurd hwt (by simp)
        · exact absurd hs (by simp)
    · simp [normalize_result, normalize_result_v2, hv]

/-- Counterexample to C9 as stated: for a result object whose `output`
is the dict `{stdout: "a"}`, the first implementation produces the text
`"a"` while the variant returns the raw dict — the tool-role message
contents differ. -/
theorem C9_counterexample :
    ¬ MsgContent.ofStr (normalize_result (.withOutput (.dict (some "a") none))) =
      normalize_result_v2 (.withOutput (.dict (some "a") none)) := by
  decide

/-- Witness for C9 (amended): a truthy plain string is normalized
identically by both implementations. -/
theorem C9_witness :
    MsgContent.ofStr (normalize_result (.plain (Scalar.str "ok"))) =
      normalize_result_v2 (.plain (Scalar.str "ok")) :=
  (C9_execute_tool_equivalence_characterized (.plain (Scalar.str "ok"))).mpr
    (Or.inl ⟨Scalar.str "ok", rfl, by decide⟩)

/-- **C8.** A `deny` verdict from the `tool:pre` hook short-circuits the
call: the tool is never executed (no `toolExec` action) and the
appended tool-role message carries the denial reason. -/
theorem C8_deny_short_circuits :
    ∀ (cfg : OrchConfig) (env : Env) (tcall : ToolCall) (hc tc : Nat)
      (r : HookResult), env.pre hc = some r → r.action = "deny" →
      handle_tool_call cfg env tcall hc tc =
        ([.emit (.toolPre tcall.name tcall.arguments tcall.id),
          .addMsg (toolMsg tcall ("Tool blocked by hook: " ++ r.reason))],
         .ok (), hc + 1, tc) ∧
      ∀ a ∈ (handle_tool_call cfg env tcall hc tc).1, isToolExec a = false := by
  intro cfg env tcall hc tc r hpre hact
  have h : handle_tool_call cfg env tcall hc tc =
      ([.emit (.toolPre tcall.name tcall.arguments tcall.id),
        .addMsg (toolMsg tcall ("Tool blocked by hook: " ++ r.reason))],
       .ok (), hc + 1, tc) := by
    unfold handle_tool_call
    rw [hpre]
    dsimp only
    rw [if_pos hact]
  refine ⟨h, ?_⟩
  rw [h]
  intro a ha
  simp only [List.mem_cons, List.not_mem_nil, or_false] at ha
  rcases ha with rfl | rfl <;> rfl

/-- Witness for C8: a concrete denying hook verdict. -/
theorem C8_witness :
    handle_tool_call ⟨100, [75, 90], false⟩
      ⟨fun _ => .fail "x", fun _ => some ⟨"deny", "busy", "", none⟩, ["grep"],
        fun _ => .error "y"⟩ ⟨"id1", "grep", "args"⟩ 0 0 =
      ([.emit (.toolPre "grep" "args" "id1"),
        .addMsg (toolMsg ⟨"id1", "grep", "args"⟩ "Tool blocked by hook: busy")],
       .ok (), 1, 0) ∧
    ∀ a ∈ (handle_tool_call ⟨100, [75, 90], false⟩
      ⟨fun _ => .fail "x", fun _ => some ⟨"deny", "busy", "", none⟩, ["grep"],
        fun _ => .error "y"⟩ ⟨"id1", "grep", "args"⟩ 0 0).1,
      isToolExec a = false := by
  have h := C8_deny_short_circuits ⟨100, [75, 90], false⟩
    ⟨fun _ => .fail "x", fun _ => some ⟨"deny", "busy", "", none⟩, ["grep"],
      fun _ => .error "y"⟩ ⟨"id1", "grep", "args"⟩ 0 0
    ⟨"deny", "busy", "", none⟩ rfl rfl
  exact ⟨h.1, h.2⟩

end LoopSafety

namespace LoopSafety

theorem isProviderCall_emit (e : Event) : isProviderCall (.emit e) = false := rfl

theorem isProviderCall_addMsg (m : Msg) : isProviderCall (.addMsg m) = false := rfl

theorem isProviderCall_toolExec (s : String) :
    isProviderCall (.toolExec s) = false := rfl

theorem isProviderCall_warn (c : Nat) : isProviderCall (.warn c) = false := rfl

theorem isProviderCall_pc (o : Option (List String)) :
    isProviderCall (.providerCall o) = true := rfl

theorem beq_warn_emit (e : Event) (v : Nat) :
    (Action.emit e == Action.warn v) = false := rfl

theorem beq_warn_addMsg (m : Msg) (v : Nat) :
    (Action.addMsg m == Action.warn v) = false := rfl

theorem beq_warn_toolExec (s : String) (v : Nat) :
    (Action.toolExec s == Action.warn v) = false := rfl

theorem beq_warn_pc (o : Option (List String)) (v : Nat) :
    (Action.providerCall o == Action.warn v) = false := rfl

theorem beq_warn_warn (c v : Nat) :
    (Action.warn c == Action.warn v) = (c == v) := by
  by_cases h : c = v <;> simp [h]

theorem providerCalls_execute_tool (cfg : OrchConfig) (env : Env)
    (tcall : ToolCall) (tc : Nat) :
    providerCalls (execute_tool cfg env tcall tc).1 = 0 := by
  unfold execute_tool
  split
  · rcases env.toolRes tc with r | e <;> rfl
  · rfl

theorem countWarn_execute_tool (cfg : OrchConfig) (env : Env)
    (tcall : ToolCall) (tc v : Nat) :
    countWarn (execute_tool cfg env tcall tc).1 v = 0 := by
  unfold execute_tool
  split
  · rcases env.toolRes tc with r | e <;> rfl
  · rfl

theorem providerCalls_handle_tool_call (cfg : OrchConfig) (env : Env)
    (tcall : ToolCall) (hc tc : Nat) :
    providerCalls (handle_tool_call cfg env tcall hc tc).1 = 0 := by
  have h0 := providerCalls_execute_tool cfg env tcall tc
  unfold handle_tool_call
  rcases hex : execute_tool cfg env tcall tc with ⟨acts, res, tc'⟩
  rw [hex] at h0
  simp only [providerCalls] at h0 ⊢
  rcases henv : env.pre hc with _ | r <;> dsimp only
  · rcases res with u | e <;> dsimp only <;>
      simp [List.countP_append, List.countP_cons, isProviderCall_emit,
        isProviderCall_addMsg, h0]
  · split
    · simp [List.countP_cons, isProviderCall_emit, isProviderCall_addMsg]
    · split <;> rcases res with u | e <;> dsimp only <;>
        simp [List.countP_append, List.countP_cons, isProviderCall_emit,
          isProviderCall_addMsg, h0]

theorem countWarn_handle_tool_call (cfg : OrchConfig) (env : Env)
    (tcall : ToolCall) (hc tc v : Nat) :
    countWarn (handle_tool_call cfg env tcall hc tc).1 v = 0 := by
  have h0 := countWarn_execute_tool cfg env tcall tc v
  unfold handle_tool_call
  rcases hex : execute_tool cfg env tcall tc with ⟨acts, res, tc'⟩
  rw [hex] at h0
  simp only [countWarn] at h0 ⊢
  rcases henv : env.pre hc with _ | r <;> dsimp only
  · rcases res with u | e <;> dsimp only <;>
      simp [List.countP_append, List.countP_cons, beq_warn_emit,
        beq_warn_addMsg, h0]
  · split
    · simp [List.countP_cons, beq_warn_emit, beq_warn_addMsg]
    · split <;> rcases res with u | e <;> dsimp only <;>
        simp [List.countP_append, List.countP_cons, beq_warn_emit,
          beq_warn_addMsg, h0]

theorem providerCalls_run_tool_calls (cfg : OrchConfig) (env : Env)
    (tcs : List ToolCall) : ∀ (hc tc : Nat),
    providerCalls (run_tool_calls cfg env tcs hc tc).1 = 0 := by
  induction tcs with
  | nil => intro hc tc; rfl
  | cons t rest ih =>
      intro hc tc
      have h1 := providerCalls_handle_tool_call cfg env t hc tc
      unfold run_tool_calls
      rcases hh : handle_tool_call cfg env t hc tc with ⟨acts, res, hc', tc'⟩
      rw [hh] at h1
      rcases res with e | u <;> dsimp only
      · exact h1
      · rcases hr : run_tool_calls cfg env rest hc' tc' with ⟨acts2, res2, hc'', tc''⟩
        have h2 := ih hc' tc'
        rw [hr] at h2
        simp only [providerCalls, List.countP_append] at h1 h2 ⊢
        omega

theorem countWarn_run_tool_calls (cfg : OrchConfig) (env : Env)
    (tcs : List ToolCall) : ∀ (hc tc v : Nat),
    countWarn (run_tool_calls cfg env tcs hc tc).1 v = 0 := by
  induction tcs with
  | nil => intro hc tc v; rfl
  | cons t rest ih =>
      intro hc tc v
      have h1 := countWarn_handle_tool_call cfg env t hc tc v
      unfold run_tool_calls
      rcases hh : handle_tool_call cfg env t hc tc with ⟨acts, res, hc', tc'⟩
      rw [hh] at h1
      rcases res with e | u <;> dsimp only
      · exact h1
      · rcases hr : run_tool_calls cfg env rest hc' tc' with ⟨acts2, res2, hc'', tc''⟩
        have h2 := ih hc' tc' v
        rw [hr] at h2
        simp only [countWarn, List.countP_append] at h1 h2 ⊢
        omega

theorem providerCalls_handle_limit_reached (cfg : OrchConfig) (env : Env)
    (count pc : Nat) :
    providerCalls (handle_limit_reached cfg env count pc).1 = 1 := by
  unfold handle_limit_reached
  rcases env.provider pc with ⟨c, tcs⟩ | e <;> rfl

theorem countWarn_handle_limit_reached (cfg : OrchConfig) (env : Env)
    (count pc v : Nat) :
    countWarn (handle_limit_reached cfg env count pc).1 v = 0 := by
  unfold handle_limit_reached
  rcases env.provider pc with ⟨c, tcs⟩ | e <;> rfl

end LoopSafety

namespace LoopSafety

theorem providerCalls_warnActs (c : Prop) [Decidable c] (v : Nat) (m : Msg) :
    List.countP isProviderCall
      (if c then [Action.warn v, Action.addMsg m] else []) = 0 := by
  split <;> rfl

theorem providerCalls_loop_iter_le (cfg : OrchConfig) (env : Env) :
    ∀ (k count pc hc tc : Nat), cfg.max_iterations - count = k →
      count < cfg.max_iterations →
      providerCalls (loop_iter cfg env count pc hc tc).1 ≤
        cfg.max_iterations - count := by
  intro k
  induction k using Nat.strong_induction_on with
  | _ k IH =>
    intro count pc hc tc hk hlt
    unfold loop_iter
    dsimp only
    by_cases hlim : cfg.max_iterations ≤ count + 1
    · rw [dif_pos hlim]
      rcases hl : handle_limit_reached cfg env (count + 1) pc with ⟨acts, out, pcx⟩
      have ha := providerCalls_handle_limit_reached cfg env (count + 1) pc
      rw [hl] at ha
      dsimp only
      simp only [providerCalls] at ha ⊢
      simp [List.countP_append, List.countP_cons, providerCalls_warnActs,
        isProviderCall_emit, ha]
      omega
    · rw [dif_neg hlim]
      rcases hp : env.provider pc with ⟨content, tcs⟩ | e
      · dsimp only
        rcases hemp : tcs.isEmpty with _ | _
        · simp only [hemp, Bool.false_eq_true, if_false]
          have htool := providerCalls_run_tool_calls cfg env tcs hc tc
          rcases hrt : run_tool_calls cfg env tcs hc tc with ⟨tacts, res, hc', tc'⟩
          rw [hrt] at htool
          simp only [providerCalls] at htool
          rcases res with e | u <;> dsimp only
          · simp only [providerCalls]
            simp [List.countP_append, List.countP_cons, providerCalls_warnActs,
              isProviderCall_emit, isProviderCall_addMsg, isProviderCall_pc, htool]
            omega
          · rcases hli : loop_iter cfg env (count + 1) (pc + 1) hc' tc' with
              ⟨racts, out2, fc⟩
            have hrec := IH (cfg.max_iterations - (count + 1)) (by omega)
              (count + 1) (pc + 1) hc' tc' rfl (by omega)
            rw [hli] at hrec
            dsimp only
            simp only [providerCalls] at hrec ⊢
            simp [List.countP_append, List.countP_cons, providerCalls_warnActs,
              isProviderCall_emit, isProviderCall_addMsg, isProviderCall_pc, htool]
            omega
        · simp only [hemp, if_true]
          simp only [providerCalls]
          simp [List.countP_append, List.countP_cons, providerCalls_warnActs,
            isProviderCall_emit, isProviderCall_addMsg, isProviderCall_pc]
          omega
      · dsimp only
        simp only [providerCalls]
        simp [List.countP_append, List.countP_cons, providerCalls_warnActs,
          isProviderCall_emit, isProviderCall_pc]
        omega

/-- **C1.** For every configuration with `max_iterations = N ≥ 1` and
every behavior of the provider, hooks and tools, one invocation of
`execute` performs at most `N` provider-completion calls (the wrap-up
call included). -/
theorem C1_provider_call_bound :
    ∀ (cfg : OrchConfig) (env : Env) (prompt : String),
      1 ≤ cfg.max_iterations →
      providerCalls (execute_run cfg env prompt).1 ≤ cfg.max_iterations := by
  intro cfg env prompt h1
  unfold execute_run
  rcases hl : loop_iter cfg env 0 0 0 0 with ⟨acts, out, fc⟩
  have hb := providerCalls_loop_iter_le cfg env cfg.max_iterations 0 0 0 0
    (by omega) (by omega)
  rw [hl] at hb
  dsimp only
  simp only [providerCalls] at hb ⊢
  simp [List.countP_cons, isProviderCall_addMsg]
  omega

/-- Witness for C1: a 2-iteration ceiling with a provider that always
requests a tool call stays within 2 provider calls. -/
theorem C1_witness :
    providerCalls (execute_run ⟨2, [], false⟩
      ⟨fun _ => .ok "go" [⟨"i", "t", "a"⟩], fun _ => none, ["t"],
        fun _ => .ok (.plain (.str "out"))⟩ "p").1 ≤ 2 :=
  C1_provider_call_bound ⟨2, [], false⟩
    ⟨fun _ => .ok "go" [⟨"i", "t", "a"⟩], fun _ => none, ["t"],
      fun _ => .ok (.plain (.str "out"))⟩ "p" (by decide)

end LoopSafety

namespace LoopSafety

theorem countWarn_append (l1 l2 : List Action) (v : Nat) :
    countWarn (l1 ++ l2) v = countWarn l1 v + countWarn l2 v :=
  List.countP_append _ _ _

theorem countWarn_warnActs (c : Prop) [Decidable c] (w : Nat) (m : Msg) (v : Nat) :
    countWarn (if c then [Action.warn w, Action.addMsg m] else []) v =
      if c ∧ w = v then 1 else 0 := by
  by_cases hc : c
  · rw [if_pos hc]
    by_cases hwv : w = v
    · simp [countWarn, List.countP_cons, beq_warn_warn, beq_warn_addMsg, hwv, hc]
    · simp [countWarn, List.countP_cons, beq_warn_warn, beq_warn_addMsg, hwv, hc]
  · simp [if_neg hc, countWarn, hc]

theorem warn_triple_of_terminal (s : List Nat) (count v n : Nat)
    (hEq : n = if count + 1 ∈ s ∧ count + 1 = v then 1 else 0) :
    (v ∈ s → count + 1 ≤ v → v ≤ count + 1 → n = 1) ∧
    (v ∉ s → n = 0) ∧
    (¬ (count + 1 ≤ v ∧ v ≤ count + 1) → n = 0) := by
  subst hEq
  refine ⟨?_, ?_, ?_⟩
  · intro hm h1 h2
    have hv : count + 1 = v := by omega
    subst hv
    simp [hm]
  · intro hm
    by_cases hv : count + 1 = v
    · subst hv
      simp [hm]
    · simp [hv]
  · intro hno
    have hv : ¬ (count + 1 = v) := by omega
    simp [hv]

theorem warn_triple_of_step (s : List Nat) (count v fc n m : Nat)
    (hfc : count + 2 ≤ fc)
    (hEq : n = (if count + 1 ∈ s ∧ count + 1 = v then 1 else 0) + m)
    (ih1 : v ∈ s → count + 2 ≤ v → v ≤ fc → m = 1)
    (ih2 : v ∉ s → m = 0)
    (ih3 : ¬ (count + 2 ≤ v ∧ v ≤ fc) → m = 0) :
    (v ∈ s → count + 1 ≤ v → v ≤ fc → n = 1) ∧
    (v ∉ s → n = 0) ∧
    (¬ (count + 1 ≤ v ∧ v ≤ fc) → n = 0) := by
  subst hEq
  refine ⟨?_, ?_, ?_⟩
  · intro hm h1 h2
    by_cases hv : count + 1 = v
    · have hm3 := ih3 (by omega)
      subst hv
      simp [hm, hm3]
    · have hm1 := ih1 hm (by omega) h2
      simp [hv, hm1]
  · intro hm
    have hm2 := ih2 hm
    by_cases hv : count + 1 = v
    · subst hv
      simp [hm, hm2]
    · simp [hv, hm2]
  · intro hno
    have hm3 := ih3 (by omega)
    have hv : ¬ (count + 1 = v) := by omega
    simp [hv, hm3]

theorem loop_iter_final_ge (cfg : OrchConfig) (env : Env) :
    ∀ (k count pc hc tc : Nat), cfg.max_iterations - count = k →
      count + 1 ≤ (loop_iter cfg env count pc hc tc).2.2 := by
  intro k
  induction k using Nat.strong_induction_on with
  | _ k IH =>
    intro count pc hc tc hk
    unfold loop_iter
    dsimp only
    by_cases hlim : cfg.max_iterations ≤ count + 1
    · rw [dif_pos hlim]
    · rw [dif_neg hlim]
      rcases hp : env.provider pc with ⟨content, tcs⟩ | e
      · dsimp only
        rcases hemp : tcs.isEmpty with _ | _
        · simp only [hemp, Bool.false_eq_true, if_false]
          rcases hrt : run_tool_calls cfg env tcs hc tc with ⟨tacts, res, hc', tc'⟩
          rcases res with e | u <;> dsimp only
          · exact Nat.le_refl _
          · rcases hli : loop_iter cfg env (count + 1) (pc + 1) hc' tc' with
              ⟨racts, out2, fc⟩
            have hrec := IH (cfg.max_iterations - (count + 1)) (by omega)
              (count + 1) (pc + 1) hc' tc' rfl
            rw [hli] at hrec
            have hrec2 : count + 2 ≤ fc := hrec
            show count + 1 ≤ fc
            omega
        · simp only [hemp, if_true]
          exact Nat.le_refl _
      · dsimp only
        exact Nat.le_refl _

end LoopSafety

namespace LoopSafety

theorem countWarn_nil (v : Nat) : countWarn [] v = 0 := rfl

theorem countWarn_cons_emit (e : Event) (l : List Action) (v : Nat) :
    countWarn (Action.emit e :: l) v = countWarn l v := by
  simp [countWarn, List.countP_cons, beq_warn_emit]

theorem countWarn_cons_pc (o : Option (List String)) (l : List Action) (v : Nat) :
    countWarn (Action.providerCall o :: l) v = countWarn l v := by
  simp [countWarn, List.countP_cons, beq_warn_pc]

theorem countWarn_cons_addMsg (m : Msg) (l : List Action) (v : Nat) :
    countWarn (Action.addMsg m :: l) v = countWarn l v := by
  simp [countWarn, List.countP_cons, beq_warn_addMsg]

theorem countWarn_loop_iter_triple (cfg : OrchConfig) (env : Env) :
    ∀ (k count pc hc tc v : Nat), cfg.max_iterations - count = k →
      ((v ∈ cfg.warn_at → count + 1 ≤ v →
          v ≤ (loop_iter cfg env count pc hc tc).2.2 →
          countWarn (loop_iter cfg env count pc hc tc).1 v = 1) ∧
       (v ∉ cfg.warn_at → countWarn (loop_iter cfg env count pc hc tc).1 v = 0) ∧
       (¬ (count + 1 ≤ v ∧ v ≤ (loop_iter cfg env count pc hc tc).2.2) →
          countWarn (loop_iter cfg env count pc hc tc).1 v = 0)) := by
  intro k
  induction k using Nat.strong_induction_on with
  | _ k IH =>
    intro count pc hc tc v hk
    unfold loop_iter
    dsimp only
    by_cases hlim : cfg.max_iterations ≤ count + 1
    · rw [dif_pos hlim]
      rcases hl : handle_limit_reached cfg env (count + 1) pc with ⟨acts, out, pcx⟩
      have hz := countWarn_handle_limit_reached cfg env (count + 1) pc v
      rw [hl] at hz
      dsimp only
      exact warn_triple_of_terminal cfg.warn_at count v _
        (by
          have hz2 : countWarn acts v = 0 := hz
          simp [countWarn_append, countWarn_warnActs, countWarn_cons_emit,
            countWarn_cons_pc, countWarn_cons_addMsg, countWarn_nil, hz2])
    · rw [dif_neg hlim]
      rcases hp : env.provider pc with ⟨content, tcs⟩ | e
      · dsimp only
        rcases hemp : tcs.isEmpty with _ | _
        · simp only [hemp, Bool.false_eq_true, if_false]
          have htz := countWarn_run_tool_calls cfg env tcs hc tc v
          rcases hrt : run_tool_calls cfg env tcs hc tc with ⟨tacts, res, hc', tc'⟩
          rw [hrt] at htz
          rcases res with e | u <;> dsimp only
          · exact warn_triple_of_terminal cfg.warn_at count v _
              (by
                have htz2 : countWarn tacts v = 0 := htz
                simp [countWarn_append, countWarn_warnActs, countWarn_cons_emit,
                  countWarn_cons_pc, countWarn_cons_addMsg, countWarn_nil, htz2])
          · rcases hli : loop_iter cfg env (count + 1) (pc + 1) hc' tc' with
              ⟨racts, out2, fc⟩
            have hge := loop_iter_final_ge cfg env
              (cfg.max_iterations - (count + 1)) (count + 1) (pc + 1) hc' tc' rfl
            rw [hli] at hge
            have hge2 : count + 2 ≤ fc := hge
            have hrec := IH (cfg.max_iterations - (count + 1)) (by omega)
              (count + 1) (pc + 1) hc' tc' v rfl
            rw [hli] at hrec
            obtain ⟨ih1, ih2, ih3⟩ := hrec
            exact warn_triple_of_step cfg.warn_at count v fc _ _ hge2
              (by
                have htz2 : countWarn tacts v = 0 := htz
                simp [countWarn_append, countWarn_warnActs, countWarn_cons_emit,
                  countWarn_cons_pc, countWarn_cons_addMsg, countWarn_nil, htz2])
              ih1 ih2 ih3
        · simp only [hemp, if_true]
          exact warn_triple_of_terminal cfg.warn_at count v _
            (by simp [countWarn_append, countWarn_warnActs, countWarn_cons_emit,
              countWarn_cons_pc, countWarn_cons_addMsg, countWarn_nil])
      · dsimp only
        exact warn_triple_of_terminal cfg.warn_at count v _
          (by simp [countWarn_append, countWarn_warnActs, countWarn_cons_emit,
            countWarn_cons_pc, countWarn_nil])

theorem execute_tool_ok (cfg : OrchConfig) (env : Env) (tcall : ToolCall)
    (tc : Nat) (hse : cfg.stop_on_error = false) :
    ∃ s, (execute_tool cfg env tcall tc).2.1 = Except.ok s := by
  unfold execute_tool
  split
  · rcases env.toolRes tc with e | r <;> dsimp only
    · simp [hse]
    · exact ⟨_, rfl⟩
  · exact ⟨_, rfl⟩

theorem handle_tool_call_ok (cfg : OrchConfig) (env : Env) (tcall : ToolCall)
    (hc tc : Nat) (hse : cfg.stop_on_error = false) :
    (handle_tool_call cfg env tcall hc tc).2.1 = Except.ok () := by
  have hex := execute_tool_ok cfg env tcall tc hse
  unfold handle_tool_call
  rcases hexq : execute_tool cfg env tcall tc with ⟨acts, res, tc'⟩
  rw [hexq] at hex
  obtain ⟨s, hs⟩ := hex
  have hres : res = Except.ok s := hs
  subst hres
  rcases henv : env.pre hc with _ | r <;> dsimp only
  by_cases hd : r.action = "deny"
  · rw [if_pos hd]
  · rw [if_neg hd]
    by_cases hi : r.action = "inject_context"
    · rw [if_pos hi]
    · rw [if_neg hi]

theorem run_tool_calls_ok (cfg : OrchConfig) (env : Env)
    (hse : cfg.stop_on_error = false) : ∀ (tcs : List ToolCall) (hc tc : Nat),
      (run_tool_calls cfg env tcs hc tc).2.1 = Except.ok () := by
  intro tcs
  induction tcs with
  | nil => intro hc tc; rfl
  | cons t rest ih =>
      intro hc tc
      have h1 := handle_tool_call_ok cfg env t hc tc hse
      unfold run_tool_calls
      rcases hh : handle_tool_call cfg env t hc tc with ⟨acts, res, hc', tc'⟩
      rw [hh] at h1
      have hres : res = Except.ok () := h1
      subst hres
      dsimp only
      rcases hr : run_tool_calls cfg env rest hc' tc' with ⟨acts2, res2, hc'', tc''⟩
      have h2 := ih hc' tc'
      rw [hr] at h2
      exact h2

theorem loop_iter_final_eq_max (cfg : OrchConfig) (env : Env)
    (hp : ∀ n, ∃ c tcs, env.provider n = PResp.ok c tcs ∧ tcs ≠ [])
    (hse : cfg.stop_on_error = false) :
    ∀ (k count pc hc tc : Nat), cfg.max_iterations - count = k →
      count < cfg.max_iterations →
      (loop_iter cfg env count pc hc tc).2.2 = cfg.max_iterations := by
  intro k
  induction k using Nat.strong_induction_on with
  | _ k IH =>
    intro count pc hc tc hk hlt
    unfold loop_iter
    dsimp only
    by_cases hlim : cfg.max_iterations ≤ count + 1
    · rw [dif_pos hlim]
      show count + 1 = cfg.max_iterations
      omega
    · rw [dif_neg hlim]
      obtain ⟨c, tcs, hpc, htne⟩ := hp pc
      rw [hpc]
      dsimp only
      have hempf : tcs.isEmpty = false := by
        rcases tcs with _ | ⟨t, r⟩
        · exact absurd rfl htne
        · rfl
      simp only [hempf, Bool.false_eq_true, if_false]
      have hok := run_tool_calls_ok cfg env hse tcs hc tc
      rcases hrt : run_tool_calls cfg env tcs hc tc with ⟨tacts, res, hc', tc'⟩
      rw [hrt] at hok
      have hres : res = Except.ok () := hok
      subst hres
      dsimp only
      rcases hli : loop_iter cfg env (count + 1) (pc + 1) hc' tc' with
        ⟨racts, out2, fc⟩
      have hrec := IH (cfg.max_iterations - (count + 1)) (by omega)
        (count + 1) (pc + 1) hc' tc' rfl (by omega)
      rw [hli] at hrec
      exact hrec

/-- **C3.** A warning for threshold `v` is injected exactly in the pass
whose iteration count equals `v`: within one invocation it is appended
exactly once when `v ∈ warn_at` and the run reaches count `v`, and
never otherwise (in particular never when the count merely exceeds
`v`); moreover with a provider that always requests tools and
`stop_on_error` off, the run reaches exactly `max_iterations`, so with
`warn_at = [75, 90]` and `max_iterations = 100` exactly the 75- and
90-warnings fire, and with `max_iterations = 80` only the 75 one. -/
theorem C3_warning_exactly_at_thresholds :
    ∀ (cfg : OrchConfig) (env : Env) (prompt : String) (v : Nat),
      ((v ∈ cfg.warn_at → 1 ≤ v → v ≤ (execute_run cfg env prompt).2.2 →
          countWarn (execute_run cfg env prompt).1 v = 1) ∧
       (v ∉ cfg.warn_at → countWarn (execute_run cfg env prompt).1 v = 0) ∧
       (¬ (1 ≤ v ∧ v ≤ (execute_run cfg env prompt).2.2) →
          countWarn (execute_run cfg env prompt).1 v = 0)) ∧
      ((∀ n, ∃ c tcs, env.provider n = PResp.ok c tcs ∧ tcs ≠ []) →
        cfg.stop_on_error = false → 1 ≤ cfg.max_iterations →
        (execute_run cfg env prompt).2.2 = cfg.max_iterations) := by
  intro cfg env prompt v
  constructor
  · have h := countWarn_loop_iter_triple cfg env (cfg.max_iterations - 0)
      0 0 0 0 v rfl
    unfold execute_run
    rcases hl : loop_iter cfg env 0 0 0 0 with ⟨acts, out, fc⟩
    rw [hl] at h
    obtain ⟨h1, h2, h3⟩ := h
    dsimp only
    refine ⟨?_, ?_, ?_⟩
    · intro hm ha hb
      rw [countWarn_cons_addMsg]
      exact h1 hm ha hb
    · intro hm
      rw [countWarn_cons_addMsg]
      exact h2 hm
    · intro hno
      rw [countWarn_cons_addMsg]
      exact h3 hno
  · intro hp hse h1
    have h := loop_iter_final_eq_max cfg env hp hse (cfg.max_iterations - 0)
      0 0 0 0 rfl (by omega)
    unfold execute_run
    rcases hl : loop_iter cfg env 0 0 0 0 with ⟨acts, out, fc⟩
    rw [hl] at h
    exact h

/-- Witness for C3: ceiling 3 with `warn_at = [2]` and an always-tools
provider — the 2-warning fires exactly once and the run reaches 3. -/
theorem C3_witness :
    countWarn (execute_run ⟨3, [2], false⟩
      ⟨fun _ => .ok "go" [⟨"i", "t", "a"⟩], fun _ => none, ["t"],
        fun _ => .ok (.plain (.str "out"))⟩ "p").1 2 = 1 ∧
    (execute_run ⟨3, [2], false⟩
      ⟨fun _ => .ok "go" [⟨"i", "t", "a"⟩], fun _ => none, ["t"],
        fun _ => .ok (.plain (.str "out"))⟩ "p").2.2 = 3 := by
  have h := C3_warning_exactly_at_thresholds ⟨3, [2], false⟩
    ⟨fun _ => .ok "go" [⟨"i", "t", "a"⟩], fun _ => none, ["t"],
      fun _ => .ok (.plain (.str "out"))⟩ "p" 2
  have hfin := h.2 (fun n => ⟨"go", [⟨"i", "t", "a"⟩], rfl, by decide⟩) rfl
    (by decide)
  refine ⟨h.1.1 (by decide) (by decide) ?_, hfin⟩
  rw [hfin]
  decide

end LoopSafety

namespace LoopSafety

/-- **C2 (amended).** When the iteration count reaches the ceiling, the
loop appends the termination system message, performs exactly one
additional provider call with tools disabled, and returns without
raising: on wrap-up success it returns the response text and the
`orchestrator:complete` event carries status `"incomplete"`; if the
wrap-up call raises, it returns the failure text (the fixed prefix
followed by the exception text) and the event carries status
`"error"` — not `"incomplete"`. -/
theorem C2_limit_wrap_up :
    ∀ (cfg : OrchConfig) (env : Env) (count pc hc tc : Nat),
      cfg.max_iterations ≤ count + 1 →
      providerCalls (loop_iter cfg env count pc hc tc).1 = 1 ∧
      Action.providerCall none ∈ (loop_iter cfg env count pc hc tc).1 ∧
      Action.addMsg (systemMsg (termination_message cfg.max_iterations)) ∈
        (loop_iter cfg env count pc hc tc).1 ∧
      (match env.provider pc with
       | .ok c _ =>
           (loop_iter cfg env count pc hc tc).2.1 = .returned c ∧
           Action.emit (.orchestratorComplete (count + 1) "incomplete") ∈
             (loop_iter cfg env count pc hc tc).1
       | .fail e =>
           (loop_iter cfg env count pc hc tc).2.1 =
             .returned ("Reached iteration limit. Failed to generate summary: " ++ e) ∧
           Action.emit (.orchestratorComplete (count + 1) "error") ∈
             (loop_iter cfg env count pc hc tc).1) := by
  intro cfg env count pc hc tc hlim
  have hpc := providerCalls_handle_limit_reached cfg env (count + 1) pc
  unfold loop_iter
  dsimp only
  rw [dif_pos hlim]
  unfold handle_limit_reached at hpc ⊢
  rcases hp : env.provider pc with ⟨c, tcs⟩ | e <;> rw [hp] at hpc <;>
    dsimp only <;> dsimp only at hpc
  · refine ⟨?_, ?_, ?_, ?_, ?_⟩
    · simp only [providerCalls, List.countP_append, providerCalls_warnActs]
      simp only [providerCalls] at hpc
      simp [List.countP_cons, isProviderCall_emit, isProviderCall_addMsg,
        isProviderCall_pc]
    · simp
    · simp
    · rfl
    · simp
  · refine ⟨?_, ?_, ?_, ?_, ?_⟩
    · simp only [providerCalls, List.countP_append, providerCalls_warnActs]
      simp [List.countP_cons, isProviderCall_emit, isProviderCall_addMsg,
        isProviderCall_pc]
    · simp
    · simp
    · rfl
    · simp

/-- Witness for C2 (amended): ceiling 1, a wrap-up provider returning
"summary". -/
theorem C2_witness :
    providerCalls (loop_iter ⟨1, [], false⟩
      ⟨fun _ => .ok "summary" [], fun _ => none, [], fun _ => .error "x"⟩
      0 0 0 0).1 = 1 ∧
    Action.providerCall none ∈ (loop_iter ⟨1, [], false⟩
      ⟨fun _ => .ok "summary" [], fun _ => none, [], fun _ => .error "x"⟩
      0 0 0 0).1 ∧
    Action.addMsg (systemMsg (termination_message 1)) ∈ (loop_iter ⟨1, [], false⟩
      ⟨fun _ => .ok "summary" [], fun _ => none, [], fun _ => .error "x"⟩
      0 0 0 0).1 ∧
    ((loop_iter ⟨1, [], false⟩
      ⟨fun _ => .ok "summary" [], fun _ => none, [], fun _ => .error "x"⟩
      0 0 0 0).2.1 = .returned "summary" ∧
     Action.emit (.orchestratorComplete 1 "incomplete") ∈ (loop_iter ⟨1, [], false⟩
      ⟨fun _ => .ok "summary" [], fun _ => none, [], fun _ => .error "x"⟩
      0 0 0 0).1) :=
  C2_limit_wrap_up ⟨1, [], false⟩
    ⟨fun _ => .ok "summary" [], fun _ => none, [], fun _ => .error "x"⟩
    0 0 0 0 (by decide)

/-- Counterexample to C2 as stated: with `max_iterations = 1` and a
provider whose wrap-up call raises, the `orchestrator:complete` event
carries status `"error"`, not `"incomplete"`, and the returned failure
text embeds the exception message. -/
theorem C2_counterexample :
    Action.emit (.orchestratorComplete 1 "error") ∈
      (execute_run ⟨1, [], false⟩
        ⟨fun _ => .fail "boom", fun _ => none, [], fun _ => .error "x"⟩ "p").1 ∧
    Action.emit (.orchestratorComplete 1 "incomplete") ∉
      (execute_run ⟨1, [], false⟩
        ⟨fun _ => .fail "boom", fun _ => none, [], fun _ => .error "x"⟩ "p").1 ∧
    (execute_run ⟨1, [], false⟩
        ⟨fun _ => .fail "boom", fun _ => none, [], fun _ => .error "x"⟩ "p").2.1 =
      .returned "Reached iteration limit. Failed to generate summary: boom" := by
  have h : execute_run ⟨1, [], false⟩
      ⟨fun _ => .fail "boom", fun _ => none, [], fun _ => .error "x"⟩ "p" =
      ([Action.addMsg { role := "user", content := "p" },
        .emit (.limitReached 1 1),
        .addMsg (systemMsg (termination_message 1)),
        .emit (.providerRequest 1 true), .providerCall none,
        .emit (.orchestratorComplete 1 "error")],
       .returned "Reached iteration limit. Failed to generate summary: boom",
       1) := by
    unfold execute_run
    unfold loop_iter
    rw [dif_pos (by decide)]
    unfold handle_limit_reached
    dsimp only
    rw [if_neg (by decide)]
    rfl
  rw [h]
  refine ⟨by decide, by decide, rfl⟩

end LoopSafety
